import Mathlib

/-!
Verification of the Ludo game engine in `gudo_game.py`.

The game logic of the source (constants, `can_move_token`, `advance_position`,
the path built by `LudoGame.make_move`, `check_capture`, `check_winner`,
`next_turn`, `roll_dice`, `ai_roll`, `on_token_clicked`, and the board
geometry `PATH_COORDS` / `HOME_COORDS`) is embedded shallowly below.
Token positions are integers: `-1` means the token is in its base,
`0..51` is the shared circular track, `52..57` is the owning player's
home stretch.  Pixel coordinates (Python floats) are modelled as exact
rationals; the arithmetic involved is plain field arithmetic, so the
structural facts proved about the coordinate tables are unaffected.
-/

namespace Ludo

/-! ### Constants (source lines 35-41) -/

def TOKENS_PER_PLAYER : Nat := 4

def MAIN_PATH_LEN : Int := 52

def HOME_STRETCH_LEN : Int := 6

def START_POSITIONS : List Int := [0, 13, 26, 39]

def HOME_ENTRY : List Int := [51, 12, 25, 38]

/-! ### Movement engine (source lines 138-175) -/

/-- `can_move_token` (source lines 138-154).  The Python token object is
represented by its position; `player_idx` is the owning player. -/
def can_move_token (pos : Int) (player_idx : Nat) (roll : Int) : Bool :=
  if pos = -1 then roll == 6
  else if pos ≥ MAIN_PATH_LEN then
    decide (pos + roll ≤ MAIN_PATH_LEN + HOME_STRETCH_LEN - 1)
  else
    let entry := HOME_ENTRY.getD player_idx 0
    let dist := if entry ≥ pos then entry - pos else MAIN_PATH_LEN - (pos - entry)
    if roll > dist then decide (roll - dist - 1 < HOME_STRETCH_LEN) else true

/-- `advance_position` (source lines 156-175).  Python's `%` on a positive
modulus agrees with `Int.emod`. -/
def advance_position (pos steps : Int) (player_idx : Nat) : Int :=
  if pos = -1 then
    if steps = 6 then START_POSITIONS.getD player_idx 0 else -1
  else if pos ≥ MAIN_PATH_LEN then
    if pos + steps ≤ MAIN_PATH_LEN + HOME_STRETCH_LEN - 1 then pos + steps else -1
  else
    let entry := HOME_ENTRY.getD player_idx 0
    let dist := if entry ≥ pos then entry - pos else MAIN_PATH_LEN - (pos - entry)
    if steps > dist then
      if MAIN_PATH_LEN + (steps - dist - 1) ≤ MAIN_PATH_LEN + HOME_STRETCH_LEN - 1
      then MAIN_PATH_LEN + (steps - dist - 1) else -1
    else (pos + steps) % MAIN_PATH_LEN

/-- The loop of `LudoGame.make_move` (source lines 414-421): starting from the
token's position it repeatedly advances by one step, collecting the visited
positions; it stops early (Python `break`) when a unit advance returns `-1`. -/
def make_move_path_go (player : Nat) : Nat → Int → List Int
  | 0, _ => []
  | n + 1, prev =>
    let next := advance_position prev 1 player
    if next = -1 then [] else next :: make_move_path_go player n next

/-- The intermediate-position list `path` built by `LudoGame.make_move` for a
token at `pos` owned by `player` with die value `roll`. -/
def make_move_path (pos : Int) (roll : Nat) (player : Nat) : List Int :=
  make_move_path_go player roll pos

/-- The spec's `distanceToEntry`: forward clockwise distance from `pos` to the
player's entry index, "wrapping modulo 52 when entryIndex < position". -/
def spec_distance (pos : Int) (player_idx : Nat) : Int :=
  (HOME_ENTRY.getD player_idx 0 - pos) % 52

/-- `isLegalMove` exactly as the spec words it (spec section 4.2), for
comparison with the source's `can_move_token`. -/
def isLegalMove_spec (pos : Int) (player_idx : Nat) (roll : Int) : Bool :=
  if pos = -1 then roll == 6
  else if pos ≥ 52 then decide (pos + roll ≤ 57)
  else if roll ≤ spec_distance pos player_idx then true
  else decide (roll - spec_distance pos player_idx - 1 < 6)

set_option maxRecDepth 8000

/-- Claim C3: `can_move_token` decides legality exactly as the spec words it:
from base legal iff the roll is 6; in the home stretch legal iff
`pos + roll ≤ 57`; on the shared track, with `distanceToEntry` the forward
clockwise distance to the owning player's entry index (wrapping modulo 52
when the entry index is behind the token), always legal when
`roll ≤ distanceToEntry`, and otherwise legal iff the home-stretch offset
`roll - distanceToEntry - 1` is `< 6`. -/
theorem c3_can_move_token_matches_spec :
    ∀ p : Fin 4, ∀ pos ∈ Finset.Icc (-1 : Int) 57, ∀ roll ∈ Finset.Icc (1 : Int) 6,
      can_move_token pos p.val roll = isLegalMove_spec pos p.val roll := by
  decide

/-- Witness for C3 at spec scenario 2: player 0, token at 50, roll 3. -/
theorem c3_can_move_token_matches_spec_witness :
    (50 : Int) ∈ Finset.Icc (-1 : Int) 57 ∧ (3 : Int) ∈ Finset.Icc (1 : Int) 6 ∧
      can_move_token 50 0 3 = isLegalMove_spec 50 0 3 :=
  ⟨by decide, by decide,
    c3_can_move_token_matches_spec 0 50 (by decide) 3 (by decide)⟩

/-- Claim C2: on the whole position/roll domain, `advance_position` returns
`-1` exactly when `can_move_token` rejects the move; when the move is legal
the result is the start index from base, `pos + roll` in the home stretch,
`(pos + roll) % 52` on the shared track when the roll does not pass the entry
cell, and `52 + (roll - distanceToEntry - 1)` when it does — and the result
always lies in `0..57`. -/
theorem c2_advance_position_cases :
    ∀ p : Fin 4, ∀ pos ∈ Finset.Icc (-1 : Int) 57, ∀ roll ∈ Finset.Icc (1 : Int) 6,
      (advance_position pos roll p.val = -1 ↔ can_move_token pos p.val roll = false) ∧
      (can_move_token pos p.val roll = true →
        0 ≤ advance_position pos roll p.val ∧ advance_position pos roll p.val ≤ 57 ∧
        (pos = -1 → advance_position pos roll p.val = START_POSITIONS.getD p.val 0) ∧
        (52 ≤ pos → advance_position pos roll p.val = pos + roll) ∧
        (0 ≤ pos → pos < 52 → roll ≤ spec_distance pos p.val →
          advance_position pos roll p.val = (pos + roll) % 52) ∧
        (0 ≤ pos → pos < 52 → spec_distance pos p.val < roll →
          advance_position pos roll p.val = 52 + (roll - spec_distance pos p.val - 1))) := by
  decide

/-- Witness for C2 at spec scenario 1: player 0, token at base, roll 6. -/
theorem c2_advance_position_cases_witness :
    (advance_position (-1) 6 0 = -1 ↔ can_move_token (-1) 0 6 = false) ∧
      (can_move_token (-1) 0 6 = true → advance_position (-1) 6 0 = 0) :=
  ⟨(c2_advance_position_cases 0 (-1) (by decide) 6 (by decide)).1,
    fun h =>
      ((c2_advance_position_cases 0 (-1) (by decide) 6 (by decide)).2 h).2.2.1 rfl⟩

/-! ### Game state and turn controller (source lines 206-467)

The mutable state of `LudoGame` that the rules read and write: the number of
players, how many of them are human, the current-player index, the pending
die value (`None` when not rolled), and every token's position.  Token
positions are stored as one list of positions per player, mirroring
`self.players[p].tokens[t].pos`.  Handlers below model one Tk event handler
together with the game-logic callbacks it directly schedules; the `Bool`
they return records whether the `Game Over` message box was shown. -/

structure GameState where
  numPlayers : Nat
  humanCount : Nat
  current : Nat
  dice : Option Int
  pos : List (List Int)
deriving DecidableEq

/-- Position of player `p`'s token `t` (`self.players[p].tokens[t].pos`). -/
def token_pos (s : GameState) (p t : Nat) : Int :=
  (s.pos.getD p []).getD t (-1)

/-- Assignment `token.pos = v` for player `p`'s token `t`. -/
def set_token_pos (s : GameState) (p t : Nat) (v : Int) : GameState :=
  { s with pos := s.pos.set p ((s.pos.getD p []).set t v) }

/-- The per-token body of the loop in `check_capture` (source line 441-442):
a token at `t` is sent to base when it sits on the landing cell on the
shared track. -/
def capture_tok (landing t : Int) : Int :=
  if t = landing ∧ t < MAIN_PATH_LEN then -1 else t

/-- The player loop of `check_capture` (source lines 438-446): every player
other than the mover has `capture_tok` applied to each token; `k` is the
index of the first player in `l`. -/
def capture_map (landing : Int) (mover : Nat) : Nat → List (List Int) → List (List Int)
  | _, [] => []
  | k, toks :: rest =>
    (if k = mover then toks else toks.map (capture_tok landing)) ::
      capture_map landing mover (k + 1) rest

/-- `LudoGame.check_capture` (source lines 437-446) after the mover's token
has come to rest on `landing`. -/
def check_capture (s : GameState) (mover : Nat) (landing : Int) : GameState :=
  { s with pos := capture_map landing mover 0 s.pos }

/-- `LudoGame.check_winner` (source lines 454-460): some player has all
`TOKENS_PER_PLAYER` tokens on the finish cell `57`. -/
def check_winner (s : GameState) : Bool :=
  s.pos.any
    (fun toks =>
      toks.countP (fun t => t == MAIN_PATH_LEN + HOME_STRETCH_LEN - 1) == TOKENS_PER_PLAYER)

/-- `LudoGame.next_turn` (source lines 448-452).  The returned flag records
whether `check_winner` fired (the `Game Over` message box). -/
def next_turn (s : GameState) : GameState × Bool :=
  if check_winner s then (s, true)
  else ({ s with current := (s.current + 1) % s.numPlayers, dice := none }, false)

/-- Indices of the current player's movable tokens, in token order
(`Player.movable_tokens`, source lines 133-134). -/
def movable_idx (s : GameState) (p : Nat) (roll : Int) : List Nat :=
  (List.range (s.pos.getD p []).length).filter
    (fun i => can_move_token (token_pos s p i) p roll)

/-- Cumulative effect of `animate_move` on the token's logical position
(source lines 179-203): the token ends on the last entry of `path`, or stays
put when `path` is empty. -/
def apply_anim (s : GameState) (p t : Nat) (path : List Int) : GameState :=
  match path.getLast? with
  | none => s
  | some q => set_token_pos s p t q

/-- The `on_done` callback inside `LudoGame.make_move` (source lines
423-434): capture resolution when the token rests on a shared-track cell,
clearing of the die, and the extra-turn-on-six rule. -/
def on_done (s : GameState) (p t : Nat) (roll : Int) : GameState × Bool :=
  let newpos := token_pos s p t
  let s1 := if 0 ≤ newpos ∧ newpos < MAIN_PATH_LEN then check_capture s p newpos else s
  let s2 := { s1 with dice := none }
  if roll ≠ 6 then next_turn s2 else (s2, false)

/-- `LudoGame.make_move` (source lines 412-435), run to completion: the
animation applies the unit-step path, then `on_done` fires. -/
def make_move (s : GameState) (p t : Nat) : GameState × Bool :=
  on_done (apply_anim s p t (make_move_path (token_pos s p t) (s.dice.getD 0).toNat p))
    p t (s.dice.getD 0)

/-- The game state at the moment `LudoGame.make_move` returns control to the
event loop: `animate_move` has synchronously applied the first path entry,
the remaining steps are scheduled, and `dice_roll` is still set (it is
cleared only in `on_done`). -/
def make_move_first_step (s : GameState) (p t : Nat) : GameState :=
  match (make_move_path (token_pos s p t) (s.dice.getD 0).toNat p).head? with
  | none => s
  | some q => set_token_pos s p t q

/-- `LudoGame.roll_dice` (source lines 349-366) with die value `r`, together
with the `next_turn` it schedules when the player has no movable token. -/
def roll_dice (s : GameState) (r : Int) : GameState × Bool :=
  if s.dice ≠ none then (s, false)
  else if s.current ≥ s.humanCount then (s, false)
  else
    let s1 := { s with dice := some r }
    if (movable_idx s1 s1.current r).isEmpty then next_turn { s1 with dice := none }
    else (s1, false)

/-- `LudoGame.on_token_clicked` (source lines 397-410) for a click on player
`p`'s token `t`, together with the `make_move` it invokes when the selection
is accepted. -/
def on_token_clicked (s : GameState) (p t : Nat) : GameState × Bool :=
  if p ≠ s.current then (s, false)
  else
    match s.dice with
    | none => (s, false)
    | some roll =>
      if can_move_token (token_pos s p t) p roll = false then (s, false)
      else make_move s p t

/-- The capture test of `LudoGame.ai_roll` (source lines 382-392) for the
current player's token `i`: its landing cell is on the shared track and some
other player has a token on that cell. -/
def is_capture_choice (s : GameState) (p : Nat) (roll : Int) (i : Nat) : Bool :=
  let target := advance_position (token_pos s p i) roll p
  decide (0 ≤ target) && decide (target < MAIN_PATH_LEN) &&
    (List.range s.pos.length).any
      (fun q =>
        decide (q ≠ p) &&
          (s.pos.getD q []).any (fun ot => ot == target && decide (ot < MAIN_PATH_LEN)))

/-- The token choice of `LudoGame.ai_roll`: the first movable token (in token
order) whose move captures, else `random.choice` over the movable tokens,
modelled by the arbitrary index `fb` reduced into range. -/
def ai_choice (s : GameState) (p : Nat) (roll : Int) (fb : Nat) : Nat :=
  match (movable_idx s p roll).find? (is_capture_choice s p roll) with
  | some i => i
  | none => (movable_idx s p roll).getD (fb % (movable_idx s p roll).length) 0

/-- `LudoGame.ai_roll` (source lines 368-395) with die value `r`, together
with the `next_turn` or `make_move` it schedules. -/
def ai_roll (s : GameState) (r : Int) (fb : Nat) : GameState × Bool :=
  let s1 := { s with dice := some r }
  if (movable_idx s1 s1.current r).isEmpty then next_turn { s1 with dice := none }
  else make_move s1 s1.current (ai_choice s1 s1.current r fb)

/-! ### Small frame lemmas about the state handlers -/

theorem set_token_pos_current (s : GameState) (p t : Nat) (v : Int) :
    (set_token_pos s p t v).current = s.current := rfl

theorem apply_anim_current (s : GameState) (p t : Nat) (path : List Int) :
    (apply_anim s p t path).current = s.current := by
  unfold apply_anim
  cases path.getLast? <;> rfl

theorem movable_idx_dice (s : GameState) (d : Option Int) (p : Nat) (r : Int) :
    movable_idx { s with dice := d } p r = movable_idx s p r := rfl

theorem check_winner_pos (s s' : GameState) (h : s.pos = s'.pos) :
    check_winner s = check_winner s' := by
  unfold check_winner
  rw [h]

theorem next_turn_fst_pos (s : GameState) : (next_turn s).1.pos = s.pos := by
  unfold next_turn
  split <;> rfl

theorem next_turn_snd (s : GameState) : (next_turn s).2 = check_winner s := by
  unfold next_turn
  split
  · next h => exact h.symm
  · next h => simpa using fun hc => h hc

/-! ### List access lemmas -/

theorem getD_set {α : Type _} (l : List α) (i j : Nat) (v d : α) :
    (l.set i v).getD j d = if i = j ∧ i < l.length then v else l.getD j d := by
  induction l generalizing i j with
  | nil => simp
  | cons a tl ih =>
    cases i with
    | zero => cases j <;> simp
    | succ i' =>
      cases j with
      | zero => simp
      | succ j' =>
        rw [List.set_cons_succ, List.getD_cons_succ, List.getD_cons_succ, ih i' j']
        have hiff : (i' + 1 = j' + 1 ∧ i' + 1 < (a :: tl).length) ↔ (i' = j' ∧ i' < tl.length) := by
          simp [Nat.succ_lt_succ_iff]
        rw [if_congr hiff rfl rfl]

theorem getD_mem_of_ne {α : Type _} :
    ∀ (l : List α) (i : Nat) (d : α), l.getD i d ≠ d → l.getD i d ∈ l := by
  intro l
  induction l with
  | nil => intro i d h; simp at h
  | cons a tl ih =>
    intro i d h
    cases i with
    | zero => simp
    | succ i' =>
      have := ih i' d (by simpa using h)
      simpa using Or.inr this

/-! ### Claim C1 -/

/-- Claim C1 (code bug): a base release (position `-1`, roll `6`) is a legal
move, yet the intermediate path that `make_move` builds for it is empty, not
the single jump `[startIndex]` the spec requires — each loop iteration
advances by exactly one step, and `advance_position (-1) 1` is `-1`, so the
loop breaks immediately.  Consequently a clicked base token with a six is
never moved: in the concrete game below it is still at `-1` after the move
completes, and the token can never leave the base at all. -/
theorem c1_base_release_path_is_empty :
    can_move_token (-1) 0 6 = true ∧
      make_move_path (-1) 6 0 = [] ∧
      token_pos
          (on_token_clicked ⟨2, 1, 0, some 6, [[-1, -1, -1, -1], [-1, -1, -1, -1]]⟩ 0 0).1
          0 0 = -1 := by
  decide

/-! ### Claim C4 -/

/-- Claim C4 (counterexample): the current player rolls a `6`, does not win
(`check_winner` is false afterwards), yet the current-player index advances
from `0` to `1` — because all their tokens sit at `52..55` in the home
stretch, no move is legal for the six and `roll_dice` auto-skips to
`next_turn` without any extra-turn exception. -/
theorem c4_counterexample_six_with_no_move_skips :
    (roll_dice ⟨2, 1, 0, none, [[52, 53, 54, 55], [-1, -1, -1, -1]]⟩ 6).1.current = 1 ∧
      check_winner (roll_dice ⟨2, 1, 0, none, [[52, 53, 54, 55], [-1, -1, -1, -1]]⟩ 6).1
        = false := by
  decide

/-- Claim C4 (amended): when the player rolls a `6` and commits a move, the
current-player index is unchanged at the end of the turn, across consecutive
sixes; but when no legal move exists for the `6`, the auto-skip passes the
turn to the next player. -/
theorem c4_amended_six_rule (s : GameState) (p t : Nat) :
    (s.dice = some 6 → (make_move s p t).1.current = s.current) ∧
      (s.dice = none → s.current < s.humanCount →
        (movable_idx s s.current 6).isEmpty = true → check_winner s = false →
        (roll_dice s 6).1.current = (s.current + 1) % s.numPlayers) := by
  constructor
  · intro hd
    unfold make_move on_done
    rw [hd]
    simp only [Option.getD_some, ne_eq, not_true_eq_false, if_false, ite_not]
    split <;> simp [apply_anim_current, check_capture, set_token_pos_current]
  · intro hnone hhuman hmov hwin
    unfold roll_dice
    rw [hnone]
    simp only [ne_eq, not_true_eq_false, if_false, ite_not, if_neg (Nat.not_le.mpr hhuman)]
    rw [if_pos]
    · unfold next_turn
      rw [if_neg]
      intro hc
      have he : check_winner { s with dice := (none : Option Int) } = check_winner s :=
        check_winner_pos _ s rfl
      rw [he, hwin] at hc
      exact Bool.noConfusion hc
    · simpa [movable_idx_dice] using hmov

/-- Witness for the amended C4: a committed move on a six keeps the turn, and
a six with no legal move passes it on. -/
theorem c4_amended_six_rule_witness :
    (make_move ⟨2, 1, 0, some 6, [[0, -1, -1, -1], [-1, -1, -1, -1]]⟩ 0 0).1.current = 0 ∧
      (roll_dice ⟨2, 1, 0, none, [[52, 53, 54, 55], [-1, -1, -1, -1]]⟩ 6).1.current
        = (0 + 1) % 2 :=
  ⟨(c4_amended_six_rule ⟨2, 1, 0, some 6, [[0, -1, -1, -1], [-1, -1, -1, -1]]⟩ 0 0).1 rfl,
    (c4_amended_six_rule ⟨2, 1, 0, none, [[52, 53, 54, 55], [-1, -1, -1, -1]]⟩ 0 0).2 rfl
      (by decide) (by decide) (by decide)⟩

/-! ### Claim C5 -/

/-- Claim C5 (counterexample): player 0's fourth token reaches the finish
cell `57` by a move committed on a roll of `6` (token at the entry cell `51`,
roll `6`), so afterwards `check_winner` holds — yet no win is declared during
that move's processing (`make_move` skips `next_turn`, the only caller of
`check_winner`, when the roll is `6`). -/
theorem c5_counterexample_six_defers_win_check :
    (make_move ⟨2, 1, 0, some 6, [[57, 57, 57, 51], [-1, -1, -1, -1]]⟩ 0 3).2 = false ∧
      check_winner (make_move ⟨2, 1, 0, some 6, [[57, 57, 57, 51], [-1, -1, -1, -1]]⟩ 0 3).1
        = true := by
  decide

/-- Claim C5 (amended): the win condition holds exactly for a player all of
whose 4 tokens are at position `57` (3 of 4 never wins), and a committed move
declares the win exactly when the post-move state satisfies it — but only for
rolls other than `6`; a move committed on a roll of `6` never declares a win,
deferring the check to the next end-of-turn. -/
theorem c5_amended_win_declaration (s : GameState) (hlen : ∀ l ∈ s.pos, l.length = 4)
    (p t : Nat) (r : Int) (hd : s.dice = some r) :
    (check_winner s = true ↔ ∃ l ∈ s.pos, ∀ x ∈ l, x = 57) ∧
      (r ≠ 6 → (make_move s p t).2 = check_winner (make_move s p t).1) ∧
      (r = 6 → (make_move s p t).2 = false) := by
  refine ⟨?_, ?_, ?_⟩
  · unfold check_winner
    rw [List.any_eq_true]
    constructor
    · rintro ⟨l, hl, hc⟩
      refine ⟨l, hl, ?_⟩
      have hc4 : l.countP (fun x => x == MAIN_PATH_LEN + HOME_STRETCH_LEN - 1) = 4 := by
        simpa [TOKENS_PER_PLAYER] using hc
      have hall := List.countP_eq_length.mp (by rw [hc4, hlen l hl])
      intro x hx
      have := hall x hx
      simpa [MAIN_PATH_LEN, HOME_STRETCH_LEN] using this
    · rintro ⟨l, hl, hall⟩
      refine ⟨l, hl, ?_⟩
      have : l.countP (fun x => x == MAIN_PATH_LEN + HOME_STRETCH_LEN - 1) = l.length :=
        List.countP_eq_length.mpr (fun a ha => by
          simp [MAIN_PATH_LEN, HOME_STRETCH_LEN, hall a ha])
      simp [this, hlen l hl, TOKENS_PER_PLAYER]
  · intro hr6
    unfold make_move on_done
    rw [hd]
    simp only [Option.getD_some, if_pos hr6]
    rw [next_turn_snd]
    exact check_winner_pos _ _ (next_turn_fst_pos _).symm
  · intro hr6
    subst hr6
    unfold make_move on_done
    rw [hd]
    simp

/-- Witness for the amended C5: a non-six finishing move declares the win the
instant the fourth token lands on `57`. -/
theorem c5_amended_win_declaration_witness :
    (check_winner ⟨2, 1, 0, some 5, [[57, 57, 57, 52], [-1, -1, -1, -1]]⟩ = true ↔
        ∃ l ∈ [[57, 57, 57, (52 : Int)], [-1, -1, -1, -1]], ∀ x ∈ l, x = 57) ∧
      (make_move ⟨2, 1, 0, some 5, [[57, 57, 57, 52], [-1, -1, -1, -1]]⟩ 0 3).2
        = check_winner (make_move ⟨2, 1, 0, some 5, [[57, 57, 57, 52], [-1, -1, -1, -1]]⟩ 0 3).1 :=
  ⟨(c5_amended_win_declaration ⟨2, 1, 0, some 5, [[57, 57, 57, 52], [-1, -1, -1, -1]]⟩
      (by decide) 0 3 5 rfl).1,
    (c5_amended_win_declaration ⟨2, 1, 0, some 5, [[57, 57, 57, 52], [-1, -1, -1, -1]]⟩
      (by decide) 0 3 5 rfl).2.1 (by decide)⟩

/-! ### Claim C6 -/

/-- A finished token (position 57) can never move again. -/
theorem can_move_finished (pl : Nat) (r : Int) (hr : 1 ≤ r) :
    can_move_token 57 pl r = false := by
  unfold can_move_token
  norm_num [MAIN_PATH_LEN, HOME_STRETCH_LEN]
  omega

/-- A player whose four tokens are all finished has no movable token. -/
theorem movable_idx_all_finished (s : GameState) (c : Nat) (r : Int) (hr : 1 ≤ r)
    (h : s.pos.getD c [] = [57, 57, 57, 57]) : movable_idx s c r = [] := by
  unfold movable_idx token_pos
  rw [h]
  rw [List.filter_eq_nil_iff]
  intro a ha
  have ha4 : a < 4 := by simpa using List.mem_range.mp ha
  interval_cases a <;> simp [can_move_finished _ _ hr]

/-- In a game-over state the winner condition holds. -/
theorem check_winner_of_current_finished (s : GameState)
    (h : s.pos.getD s.current [] = [57, 57, 57, 57]) : check_winner s = true := by
  have hmem : ([57, 57, 57, 57] : List Int) ∈ s.pos := by
    have := getD_mem_of_ne s.pos s.current [] (by rw [h]; simp)
    rwa [h] at this
  unfold check_winner
  exact List.any_eq_true.mpr ⟨[57, 57, 57, 57], hmem, by decide⟩

theorem dice_none_eta (s : GameState) (h : s.dice = none) :
    { s with dice := (none : Option Int) } = s := by
  cases s
  simp_all

/-- Claim C6: in a game-over state — the current player (the declared winner)
has all four tokens on the finish cell and no roll is pending — every
subsequent roll request, token click, and AI roll leaves the whole game state
unchanged: token positions, current player and pending die are all intact. -/
theorem c6_game_over_is_terminal (s : GameState)
    (h : s.pos.getD s.current [] = [57, 57, 57, 57]) (hd : s.dice = none)
    (r : Int) (hr : 1 ≤ r) (p t fb : Nat) :
    (roll_dice s r).1 = s ∧ (on_token_clicked s p t).1 = s ∧ (ai_roll s r fb).1 = s := by
  have hwin : check_winner s = true := check_winner_of_current_finished s h
  have hmov : movable_idx s s.current r = [] := movable_idx_all_finished s s.current r hr h
  have hskip : next_turn { s with dice := (none : Option Int) } = (s, true) := by
    rw [dice_none_eta s hd]
    unfold next_turn
    rw [if_pos hwin]
  refine ⟨?_, ?_, ?_⟩
  · unfold roll_dice
    rw [hd]
    simp only [ne_eq, not_true_eq_false, if_false, ite_not]
    split
    · rfl
    · rw [if_pos (by simp [movable_idx_dice, hmov]), hskip]
  · unfold on_token_clicked
    split
    · rfl
    · rw [hd]
  · unfold ai_roll
    rw [if_pos (by simp [movable_idx_dice, hmov]), hskip]

/-- Witness for C6: player 0 has won; a roll of 3, a click on an opposing
token, and an AI roll all leave the state untouched. -/
theorem c6_game_over_is_terminal_witness :
    (roll_dice ⟨2, 1, 0, none, [[57, 57, 57, 57], [-1, -1, -1, -1]]⟩ 3).1
        = ⟨2, 1, 0, none, [[57, 57, 57, 57], [-1, -1, -1, -1]]⟩ ∧
      (on_token_clicked ⟨2, 1, 0, none, [[57, 57, 57, 57], [-1, -1, -1, -1]]⟩ 1 0).1
        = ⟨2, 1, 0, none, [[57, 57, 57, 57], [-1, -1, -1, -1]]⟩ ∧
      (ai_roll ⟨2, 1, 0, none, [[57, 57, 57, 57], [-1, -1, -1, -1]]⟩ 3 0).1
        = ⟨2, 1, 0, none, [[57, 57, 57, 57], [-1, -1, -1, -1]]⟩ :=
  c6_game_over_is_terminal ⟨2, 1, 0, none, [[57, 57, 57, 57], [-1, -1, -1, -1]]⟩
    (by decide) rfl 3 (by decide) 1 0 0

/-! ### Claim C7 -/

/-- Claim C7 (code bug): while a move's animation is still in progress the
pending die is not yet cleared (`dice_roll` is reset only in `on_done`), and
`on_token_clicked` has no guard for the animating phase — so a click on a
second movable token passes every check and commits a second move with the
same roll.  Below, player 0 clicked the token at `3` with roll `2`
(`make_move_first_step` is the state when that handler returns: the token
already advanced to `4`, die still pending); clicking the token at `10` then
changes its position to `12`, clears the die and advances the turn, instead
of being ignored. -/
theorem c7_click_during_animation_mutates :
    (make_move_first_step ⟨2, 1, 0, some 2, [[3, 10, -1, -1], [20, -1, -1, -1]]⟩ 0 0).dice
        = some 2 ∧
      token_pos (make_move_first_step ⟨2, 1, 0, some 2, [[3, 10, -1, -1], [20, -1, -1, -1]]⟩ 0 0)
          0 0 = 4 ∧
      (on_token_clicked
            (make_move_first_step ⟨2, 1, 0, some 2, [[3, 10, -1, -1], [20, -1, -1, -1]]⟩ 0 0)
            0 1).1
        = ⟨2, 1, 1, none, [[4, 12, -1, -1], [20, -1, -1, -1]]⟩ := by
  decide

/-! ### Claim C8 -/

theorem capture_tok_base (landing : Int) : capture_tok landing (-1) = -1 := by
  unfold capture_tok
  split <;> rfl

theorem getD_map_capture (landing : Int) :
    ∀ (l : List Int) (u : Nat),
      (l.map (capture_tok landing)).getD u (-1) = capture_tok landing (l.getD u (-1)) := by
  intro l
  induction l with
  | nil => intro u; simp [capture_tok_base]
  | cons a tl ih =>
    intro u
    cases u with
    | zero => rfl
    | succ u' => simpa using ih u'

theorem capture_map_getD (landing : Int) (mover : Nat) :
    ∀ (l : List (List Int)) (k q : Nat),
      (capture_map landing mover k l).getD q [] =
        if k + q = mover then l.getD q []
        else (l.getD q []).map (capture_tok landing) := by
  intro l
  induction l with
  | nil =>
    intro k q
    have h1 : capture_map landing mover k [] = [] := rfl
    have h2 : ([] : List (List Int)).getD q [] = [] := rfl
    rw [h1, h2]
    split <;> simp
  | cons a tl ih =>
    intro k q
    have hstep : capture_map landing mover k (a :: tl) =
        (if k = mover then a else a.map (capture_tok landing)) ::
          capture_map landing mover (k + 1) tl := rfl
    cases q with
    | zero => rw [hstep]; simp
    | succ q' =>
      rw [hstep, List.getD_cons_succ, List.getD_cons_succ, ih (k + 1) q']
      have hiff : (k + 1 + q' = mover) ↔ (k + (q' + 1) = mover) := by omega
      rw [if_congr hiff rfl rfl]

/-- Pointwise description of `check_capture`: a token is sent to base exactly
when it belongs to an opponent of the mover and sits on the landing cell of
the shared track; every other token keeps its position. -/
theorem token_pos_check_capture (s : GameState) (mover : Nat) (landing : Int) (q u : Nat) :
    token_pos (check_capture s mover landing) q u =
      if q ≠ mover ∧ token_pos s q u = landing ∧ token_pos s q u < 52 then -1
      else token_pos s q u := by
  unfold token_pos check_capture
  simp only
  rw [capture_map_getD]
  by_cases hq : q = mover
  · rw [if_pos (by simpa using hq), if_neg (by simp [hq])]
  · rw [if_neg (by simpa using hq), getD_map_capture]
    unfold capture_tok
    by_cases hc : (s.pos.getD q []).getD u (-1) = landing ∧ (s.pos.getD q []).getD u (-1) < 52
    · rw [if_pos (by simpa [MAIN_PATH_LEN] using hc), if_pos ⟨hq, hc⟩]
    · rw [if_neg (by simpa [MAIN_PATH_LEN] using hc),
        if_neg (fun hh => hc ⟨hh.2.1, hh.2.2⟩)]

theorem token_pos_set_self (s : GameState) (p t : Nat) (v : Int)
    (hp : p < s.pos.length) (ht : t < (s.pos.getD p []).length) :
    token_pos (set_token_pos s p t v) p t = v := by
  unfold token_pos set_token_pos
  simp only
  rw [getD_set, if_pos ⟨rfl, hp⟩, getD_set, if_pos ⟨rfl, ht⟩]

theorem token_pos_set_other (s : GameState) (p t : Nat) (v : Int) (q u : Nat)
    (hne : ¬(q = p ∧ u = t)) :
    token_pos (set_token_pos s p t v) q u = token_pos s q u := by
  unfold token_pos set_token_pos
  simp only
  rw [getD_set]
  by_cases hpq : p = q ∧ p < s.pos.length
  · obtain ⟨hpq1, hpl⟩ := hpq
    subst hpq1
    rw [if_pos ⟨rfl, hpl⟩, getD_set,
      if_neg (by rintro ⟨h1, _⟩; exact hne ⟨rfl, h1.symm⟩)]
  · rw [if_neg hpq]

theorem token_pos_next_turn (s : GameState) (q u : Nat) :
    token_pos (next_turn s).1 q u = token_pos s q u := by
  unfold next_turn
  split <;> rfl

/-- Claim C8: a committed move sets the moving token to its landing position
`L`; every other token is sent to base exactly when it belongs to an opposing
player, the landing is a shared-track cell `0..51`, and the token sits on
that exact cell — in every other case (own tokens, other cells, home-stretch
landings, a token staying at base) its position is untouched. -/
theorem c8_capture_frame_effect (s : GameState) (p t : Nat) (roll : Int)
    (hd : s.dice = some roll) (hp : p < s.pos.length)
    (ht : t < (s.pos.getD p []).length) (q u : Nat) (L : Int)
    (hL : L = (make_move_path (token_pos s p t) roll.toNat p).getLast?.getD (token_pos s p t)) :
    token_pos (make_move s p t).1 p t = L ∧
      (¬(q = p ∧ u = t) →
        token_pos (make_move s p t).1 q u =
          if q ≠ p ∧ 0 ≤ L ∧ L < 52 ∧ token_pos s q u = L then -1
          else token_pos s q u) := by
  have hanim_pt : token_pos (apply_anim s p t
      (make_move_path (token_pos s p t) roll.toNat p)) p t = L := by
    unfold apply_anim
    rcases hlast : (make_move_path (token_pos s p t) roll.toNat p).getLast? with _ | q0 <;>
      simp only
    · rw [hL, hlast]; rfl
    · rw [token_pos_set_self s p t q0 hp ht, hL, hlast]; rfl
  have hanim_other : ∀ x y, ¬(x = p ∧ y = t) →
      token_pos (apply_anim s p t
        (make_move_path (token_pos s p t) roll.toNat p)) x y = token_pos s x y := by
    intro x y hxy
    unfold apply_anim
    rcases (make_move_path (token_pos s p t) roll.toNat p).getLast? with _ | q0
    · rfl
    · exact token_pos_set_other s p t q0 x y hxy
  set sA := apply_anim s p t (make_move_path (token_pos s p t) roll.toNat p) with hsA
  have hmm : make_move s p t = on_done sA p t roll := by
    unfold make_move
    rw [hd]
    rfl
  have hres : ∀ x y, token_pos (make_move s p t).1 x y =
      token_pos (if 0 ≤ L ∧ L < 52 then check_capture sA p L else sA) x y := by
    intro x y
    rw [hmm]
    unfold on_done
    simp only [hanim_pt, MAIN_PATH_LEN]
    split
    · rw [token_pos_next_turn]; exact rfl
    · exact rfl
  constructor
  · rw [hres p t]
    split
    · rw [token_pos_check_capture]
      rw [if_neg (by rintro ⟨hqp, _⟩; exact hqp rfl)]
      exact hanim_pt
    · exact hanim_pt
  · intro hne
    rw [hres q u]
    by_cases hg : 0 ≤ L ∧ L < 52
    · rw [if_pos hg, token_pos_check_capture, hanim_other q u hne]
      by_cases hcond : q ≠ p ∧ token_pos s q u = L ∧ token_pos s q u < 52
      · rw [if_pos hcond, if_pos ⟨hcond.1, hg.1, hg.2, hcond.2.1⟩]
      · rw [if_neg hcond, if_neg ?_]
        rintro ⟨h1, _, h3, h4⟩
        exact hcond ⟨h1, h4, by rw [h4]; exact h3⟩
    · rw [if_neg hg, hanim_other q u hne,
        if_neg (by rintro ⟨_, h2, h3, _⟩; exact hg ⟨h2, h3⟩)]

/-- Witness for C8, spec scenario 3: player 0's token moves from 11 to 13
(roll 2); player 1's token on cell 13 is captured, the mover rests on 13. -/
theorem c8_capture_frame_effect_witness :
    token_pos (make_move ⟨2, 1, 0, some 2, [[11, -1, -1, -1], [13, 20, -1, -1]]⟩ 0 0).1 0 0
        = 13 ∧
      token_pos (make_move ⟨2, 1, 0, some 2, [[11, -1, -1, -1], [13, 20, -1, -1]]⟩ 0 0).1 1 0
        = -1 :=
  ⟨((c8_capture_frame_effect ⟨2, 1, 0, some 2, [[11, -1, -1, -1], [13, 20, -1, -1]]⟩ 0 0 2
      rfl (by decide) (by decide) 1 0 13 (by decide)).1),
    by
      have := (c8_capture_frame_effect ⟨2, 1, 0, some 2, [[11, -1, -1, -1], [13, 20, -1, -1]]⟩
        0 0 2 rfl (by decide) (by decide) 1 0 13 (by decide)).2 (by decide)
      simpa using this⟩

/-! ### Claim C9 -/

/-- In a strictly increasing list, `find?` returns the least element
satisfying the predicate. -/
theorem find_first_in_sorted (qf : Nat → Bool) :
    ∀ (l : List Nat) (c : Nat), l.Pairwise (· < ·) → l.find? qf = some c →
      ∀ j ∈ l, qf j = true → c ≤ j := by
  intro l
  induction l with
  | nil => intro c _ hf; simp at hf
  | cons a tl ih =>
    intro c hs hf j hj hq
    rcases List.pairwise_cons.mp hs with ⟨ha, htl⟩
    by_cases hqa : qf a = true
    · have hca : c = a := by
        rw [List.find?_cons_of_pos _ hqa] at hf
        exact (Option.some.inj hf).symm
      subst hca
      rcases List.mem_cons.mp hj with rfl | hjtl
      · exact Nat.le_refl _
      · exact Nat.le_of_lt (ha j hjtl)
    · rw [List.find?_cons_of_neg _ hqa] at hf
      rcases List.mem_cons.mp hj with rfl | hjtl
      · exact absurd hq hqa
      · exact ih c htl hf j hjtl hq

/-- The movable-token indices are listed in strictly increasing token order
(the fixed scan order). -/
theorem movable_idx_sorted (s : GameState) (p : Nat) (roll : Int) :
    (movable_idx s p roll).Pairwise (· < ·) :=
  List.Pairwise.filter _ (List.pairwise_lt_range _)

theorem getD_mem_of_lt {α : Type _} (l : List α) (i : Nat) (d : α) (h : i < l.length) :
    l.getD i d ∈ l := by
  rw [List.getD_eq_getElem l d h]
  exact List.getElem_mem h

/-- Claim C9: when some legal token's landing cell is a shared-track cell
occupied by an opposing token, the AI picks the first such token in the
fixed token-scan order (a movable non-capturing token earlier in the order
is skipped); otherwise its pick is some member of the legal set. -/
theorem c9_ai_capture_preference (s : GameState) (p : Nat) (roll : Int) (fb : Nat) :
    ((∃ i ∈ movable_idx s p roll, is_capture_choice s p roll i = true) →
      ai_choice s p roll fb ∈ movable_idx s p roll ∧
        is_capture_choice s p roll (ai_choice s p roll fb) = true ∧
        ∀ j ∈ movable_idx s p roll, is_capture_choice s p roll j = true →
          ai_choice s p roll fb ≤ j) ∧
      ((∀ i ∈ movable_idx s p roll, is_capture_choice s p roll i = false) →
        movable_idx s p roll ≠ [] → ai_choice s p roll fb ∈ movable_idx s p roll) := by
  constructor
  · rintro ⟨i, hi, hci⟩
    rcases hfind : (movable_idx s p roll).find? (is_capture_choice s p roll) with _ | c
    · exact absurd hci (by simpa using List.find?_eq_none.mp hfind i hi)
    · have hch : ai_choice s p roll fb = c := by
        unfold ai_choice
        rw [hfind]
      rw [hch]
      exact ⟨List.mem_of_find?_eq_some hfind, List.find?_some hfind,
        find_first_in_sorted _ _ c (movable_idx_sorted s p roll) hfind⟩
  · intro hall hne
    have hfind : (movable_idx s p roll).find? (is_capture_choice s p roll) = none :=
      List.find?_eq_none.mpr (fun x hx => by simp [hall x hx])
    have hch : ai_choice s p roll fb =
        (movable_idx s p roll).getD (fb % (movable_idx s p roll).length) 0 := by
      unfold ai_choice
      rw [hfind]
    rw [hch]
    exact getD_mem_of_lt _ _ _ (Nat.mod_lt fb (List.length_pos.mpr hne))

/-- Witness for C9, spec scenario 4: AI player 1 has two movable tokens (at
cells 0 and 3 with roll 2); only the second one captures (landing on cell 5,
occupied by player 0), and the AI selects it although it is not first in the
scan order. -/
theorem c9_ai_capture_preference_witness :
    ai_choice ⟨2, 1, 1, some 2, [[5, -1, -1, -1], [0, 3, -1, -1]]⟩ 1 2 0
        ∈ movable_idx ⟨2, 1, 1, some 2, [[5, -1, -1, -1], [0, 3, -1, -1]]⟩ 1 2 ∧
      is_capture_choice ⟨2, 1, 1, some 2, [[5, -1, -1, -1], [0, 3, -1, -1]]⟩ 1 2
          (ai_choice ⟨2, 1, 1, some 2, [[5, -1, -1, -1], [0, 3, -1, -1]]⟩ 1 2 0) = true ∧
      ∀ j ∈ movable_idx ⟨2, 1, 1, some 2, [[5, -1, -1, -1], [0, 3, -1, -1]]⟩ 1 2,
        is_capture_choice ⟨2, 1, 1, some 2, [[5, -1, -1, -1], [0, 3, -1, -1]]⟩ 1 2 j = true →
          ai_choice ⟨2, 1, 1, some 2, [[5, -1, -1, -1], [0, 3, -1, -1]]⟩ 1 2 0 ≤ j :=
  (c9_ai_capture_preference ⟨2, 1, 1, some 2, [[5, -1, -1, -1], [0, 3, -1, -1]]⟩ 1 2 0).1
    (by decide)

/-! ### Claim C10: board geometry (source lines 31-84)

Python computes pixel coordinates with float arithmetic; every operation
involved (`+`, `-`, `*`, `/` on small screen-scale numbers) is modelled here
with exact rationals, which preserves the structural content of the claims
(which cell an interpolation starts from, how many points are produced). -/

def WINDOW_SIZE : ℚ := 760

def BOARD_SIZE : ℚ := 620

/-- `MARGIN = (WINDOW_SIZE - BOARD_SIZE) // 2`; the division is exact. -/
def MARGIN : ℚ := (WINDOW_SIZE - BOARD_SIZE) / 2

def CENTER : ℚ × ℚ := (MARGIN + BOARD_SIZE / 2, MARGIN + BOARD_SIZE / 2)

/-- The `pix` helper of `build_path_coords` (source lines 49-52). -/
def pix (r c : Nat) : ℚ × ℚ :=
  (MARGIN + c * (BOARD_SIZE / 14), MARGIN + r * (BOARD_SIZE / 14))

/-- The `cells` grid list of `build_path_coords` (source lines 55-63). -/
def path_cells : List (Nat × Nat) :=
  [(6, 0), (6, 1), (6, 2), (6, 3), (6, 4), (6, 5),
   (5, 6), (4, 6), (3, 6), (2, 6), (1, 6), (0, 6), (0, 7),
   (0, 8), (1, 8), (2, 8), (3, 8), (4, 8), (5, 8),
   (6, 9), (6, 10), (6, 11), (6, 12), (6, 13), (6, 14),
   (7, 14), (8, 14), (8, 13), (8, 12), (8, 11), (8, 10), (8, 9),
   (9, 8), (10, 8), (11, 8), (12, 8), (13, 8), (14, 8), (14, 7),
   (14, 6), (13, 6), (12, 6), (11, 6), (10, 6), (9, 6), (8, 6)]

/-- `build_path_coords` (source lines 45-69): the 46 grid cells are mapped to
pixels, then the `while` loop pads with copies of the last coordinate up to
length 52 (each appended element equals the original last element), and the
result is truncated to 52. -/
def build_path_coords : List (ℚ × ℚ) :=
  let coords := path_cells.map (fun rc => pix rc.1 rc.2)
  (coords ++ List.replicate (52 - coords.length) (coords.getLast?.getD (0, 0))).take 52

def PATH_COORDS : List (ℚ × ℚ) := build_path_coords

/-- `HOME_COORDS[p]` (source lines 74-84): six points interpolated from
`PATH_COORDS[START_POSITIONS[p]]` toward `CENTER` with `t = (i+1)/6`. -/
def HOME_COORDS (p : Nat) : List (ℚ × ℚ) :=
  (List.range 6).map
    (fun i =>
      ((PATH_COORDS.getD (START_POSITIONS.getD p 0).toNat (0, 0)).1 +
          (CENTER.1 - (PATH_COORDS.getD (START_POSITIONS.getD p 0).toNat (0, 0)).1) *
            ((i + 1 : ℚ) / 6),
        (PATH_COORDS.getD (START_POSITIONS.getD p 0).toNat (0, 0)).2 +
          (CENTER.2 - (PATH_COORDS.getD (START_POSITIONS.getD p 0).toNat (0, 0)).2) *
            ((i + 1 : ℚ) / 6)))

/-- The home-stretch table as claim C10 words it: the same interpolation but
starting from the player's ENTRY cell `PATH_COORDS[HOME_ENTRY[p]]`. -/
def home_coords_from_entry (p : Nat) : List (ℚ × ℚ) :=
  (List.range 6).map
    (fun i =>
      ((PATH_COORDS.getD (HOME_ENTRY.getD p 0).toNat (0, 0)).1 +
          (CENTER.1 - (PATH_COORDS.getD (HOME_ENTRY.getD p 0).toNat (0, 0)).1) *
            ((i + 1 : ℚ) / 6),
        (PATH_COORDS.getD (HOME_ENTRY.getD p 0).toNat (0, 0)).2 +
          (CENTER.2 - (PATH_COORDS.getD (HOME_ENTRY.getD p 0).toNat (0, 0)).2) *
            ((i + 1 : ℚ) / 6)))

/-- The `i`-th home-stretch point of player `p`, extracted from the table:
the list layer (`range`, `map`, `getD`, and the `PATH_COORDS` construction)
reduces structurally. -/
theorem home_coords_getD (p : Nat) (i : Fin 6) :
    (HOME_COORDS p).getD i.val (0, 0) =
      ((PATH_COORDS.getD (START_POSITIONS.getD p 0).toNat (0, 0)).1 +
          (CENTER.1 - (PATH_COORDS.getD (START_POSITIONS.getD p 0).toNat (0, 0)).1) *
            ((i.val + 1 : ℚ) / 6),
        (PATH_COORDS.getD (START_POSITIONS.getD p 0).toNat (0, 0)).2 +
          (CENTER.2 - (PATH_COORDS.getD (START_POSITIONS.getD p 0).toNat (0, 0)).2) *
            ((i.val + 1 : ℚ) / 6)) := by
  fin_cases i <;> rfl

theorem home_coords_length (p : Nat) : (HOME_COORDS p).length = 6 := rfl

/-- Claim C10 (counterexample): the home-stretch coordinates of player 0 are
not the interpolation from the entry cell — the source interpolates from the
START cell `PATH_COORDS[START_POSITIONS[p]] = pix 6 0`, which differs from
player 0's entry cell `PATH_COORDS[51] = pix 8 6`; already the first point's
x-coordinate differs. -/
theorem c10_counterexample_starts_at_start_cell :
    HOME_COORDS 0 ≠ home_coords_from_entry 0 := by
  intro h
  have h0 := congrArg (fun l => (l.getD 0 ((0 : ℚ), (0 : ℚ))).1) h
  have hL : ((HOME_COORDS 0).getD 0 ((0 : ℚ), (0 : ℚ))).1
      = (pix 6 0).1 + (CENTER.1 - (pix 6 0).1) * ((((0 : ℕ) : ℚ) + 1) / 6) := rfl
  have hR : ((home_coords_from_entry 0).getD 0 ((0 : ℚ), (0 : ℚ))).1
      = (pix 8 6).1 + (CENTER.1 - (pix 8 6).1) * ((((0 : ℕ) : ℚ) + 1) / 6) := rfl
  simp only at h0
  rw [hL, hR] at h0
  norm_num [pix, CENTER, MARGIN, WINDOW_SIZE, BOARD_SIZE] at h0

/-- Claim C10 (amended): each player's home-stretch table has exactly 6
points, and point `i` is the affine interpolation between the player's START
cell (not the entry cell) and the board center with parameter `t = (i+1)/6`,
so the table ends exactly at the center. -/
theorem c10_amended_home_coords (p : Fin 4) (i : Fin 6) :
    (HOME_COORDS p.val).length = 6 ∧
      (HOME_COORDS p.val).getD i.val (0, 0) =
        ((1 - ((i.val + 1 : ℚ) / 6)) *
              (PATH_COORDS.getD (START_POSITIONS.getD p.val 0).toNat (0, 0)).1 +
            ((i.val + 1 : ℚ) / 6) * CENTER.1,
          (1 - ((i.val + 1 : ℚ) / 6)) *
              (PATH_COORDS.getD (START_POSITIONS.getD p.val 0).toNat (0, 0)).2 +
            ((i.val + 1 : ℚ) / 6) * CENTER.2) ∧
      (HOME_COORDS p.val).getD 5 (0, 0) = CENTER := by
  refine ⟨home_coords_length _, ?_, ?_⟩
  · rw [home_coords_getD p.val i]
    simp only [Prod.mk.injEq]
    constructor <;> ring
  · rw [home_coords_getD p.val ⟨5, by omega⟩]
    have h6 : ((((5 : ℕ) : ℚ)) + 1) / 6 = 1 := by norm_num
    simp only [h6]
    have hc : CENTER = (CENTER.1, CENTER.2) := rfl
    rw [hc]
    simp only [Prod.mk.injEq]
    constructor <;> ring

end Ludo
